import Mathlib

/-!
Verification of the jsftp FTP client core (src/ftp.js, src/lib/once.js).

Text is modelled as `List Char` (a JS string is a sequence of characters);
stateful dispatcher code is modelled as explicit state passing producing a
list of observable events (callback invocations and socket writes).
-/

namespace JsFtp

/-- Character list of a string literal (JS strings are char sequences). -/
def str (s : String) : List Char := s.data

/-- The whitespace characters trimmed by JS `String.prototype.trim` (the
ASCII set plus NBSP/BOM; the inputs handled here are ASCII). -/
def isJsWs (c : Char) : Bool :=
  c = ' ' || c = '\t' || c = '\n' || c = '\r' ||
  c = '\x0b' || c = '\x0c' || c = '\u00A0' || c = '\uFEFF'

/-- JS `String.prototype.trim`: strip leading and trailing whitespace. -/
def jsTrim (l : List Char) : List Char :=
  ((l.dropWhile isJsWs).reverse.dropWhile isJsWs).reverse

/-- JS `String.prototype.toLowerCase`, for the ASCII range. -/
def jsLower (l : List Char) : List Char := l.map Char.toLower

/-! ## src/lib/once.js

`once(fn)` wraps `fn` so that only the first invocation runs `fn`; later
invocations return the cached value without running `fn` again. -/

/-- Run a sequence of invocations against a `once`-wrapped function whose
`called` flag starts at `called`.  Returns the final flag together with the
arguments of the invocations that actually executed the wrapped function,
in order (src/lib/once.js lines 4-16). -/
def onceRun {α : Type} (called : Bool) : List α → Bool × List α
  | [] => (called, [])
  | a :: rest =>
    if called then onceRun true rest
    else
      let out := onceRun true rest
      (out.1, a :: out.2)

/-! ## runCmd (src/ftp.js lines 48-60)

`runCmd(cmd, ...args, cb)` joins the command word and its arguments with
spaces, trims the result, and hands the line to `execute`. -/

/-- Join a list of argument strings with single spaces (JS `args.join(' ')`). -/
def joinSpace : List (List Char) → List Char
  | [] => []
  | [a] => a
  | a :: rest => a ++ ' ' :: joinSpace rest

/-- The command line built by `runCmd`: `(cmd + ' ' + args.join(' ')).trim()`. -/
def runCmdLine (cmd : List Char) (args : List (List Char)) : List Char :=
  jsTrim (cmd ++ ' ' :: joinSpace args)

/-! ## PASV reply parsing (src/ftp.js lines 32-46)

`RE_PASV = /([-\d]+,[-\d]+,[-\d]+,[-\d]+),([-\d]+),([-\d]+)/`.

The character class `[-\d]` never contains `','`, and in the pattern every
`[-\d]+` is followed either by a literal `','` or by the end of the
pattern, so greedy maximal-munch matching is exact: a match exists at a
start position exactly when the maximal-munch run succeeds there, and the
groups of the leftmost match are the maximal-munch groups.  `searchPasv`
below therefore implements exactly the semantics of `RE_PASV.exec`. -/

/-- The regex character class `[-\d]`. -/
def isPasvChar (c : Char) : Bool := c = '-' || c.isDigit

/-- Match one `[-\d]+` group (maximal munch, at least one character). -/
def munchNum (l : List Char) : Option (List Char × List Char) :=
  if l.takeWhile isPasvChar = [] then none
  else some (l.takeWhile isPasvChar, l.dropWhile isPasvChar)

/-- Match a literal `','`. -/
def expectComma : List Char → Option (List Char)
  | ',' :: r => some r
  | _ => none

/-- Match one `[-\d]+` group followed by a literal `','`. -/
def munchNumComma (l : List Char) : Option (List Char × List Char) := do
  let (a, r) ← munchNum l
  let r ← expectComma r
  pure (a, r)

/-- Attempt `RE_PASV` anchored at the start of `l` (the pattern is five
`[-\d]+,` steps followed by a final `[-\d]+`); on success return the three
capture groups. -/
def tryMatchAt (l : List Char) : Option (List Char × List Char × List Char) := do
  let (a1, r) ← munchNumComma l
  let (a2, r) ← munchNumComma r
  let (a3, r) ← munchNumComma r
  let (a4, r) ← munchNumComma r
  let (p1, r) ← munchNumComma r
  let (p2, _) ← munchNum r
  pure (a1 ++ (',' :: (a2 ++ (',' :: (a3 ++ (',' :: a4))))), p1, p2)

/-- `RE_PASV.exec`: try every start position left to right. -/
def searchPasv : List Char → Option (List Char × List Char × List Char)
  | [] => none
  | c :: rest =>
    match tryMatchAt (c :: rest) with
    | some g => some g
    | none => searchPasv rest

/-- Decimal value of a list of digit characters. -/
def digitVal (c : Char) : Nat := c.toNat - 48

/-- Accumulated decimal value (how `parseInt` folds consecutive digits). -/
def digitsVal (l : List Char) : Nat := l.foldl (fun a c => a * 10 + digitVal c) 0

/-- The longest leading run of decimal digits, as a value; `none` when there
is no leading digit (which makes JS `parseInt` return `NaN`). -/
def leadDigits (l : List Char) : Option Nat :=
  if l.takeWhile Char.isDigit = [] then none
  else some (digitsVal (l.takeWhile Char.isDigit))

/-- JS `parseInt(s, 10)`: skip whitespace, optional sign, then leading
decimal digits; `none` models `NaN`. -/
def parseInt10 (l : List Char) : Option Int :=
  match l.dropWhile isJsWs with
  | [] => none
  | c :: r =>
    if c = '-' then (leadDigits r).map (fun v => -(v : Int))
    else if c = '+' then (leadDigits r).map (fun v => (v : Int))
    else (leadDigits (c :: r)).map (fun v => (v : Int))

/-- JS `x & 255` applied to a `parseInt` result: bitwise-and coerces `NaN`
to `0`, and for any integer keeps the low 8 bits of its two's-complement
form, i.e. the Euclidean remainder mod 256. -/
def and255 : Option Int → Int
  | none => 0
  | some n => n % 256

/-- Replace `','` by `'.'` (JS `match[1].replace(/,/g, '.')`). -/
def commaToDot (c : Char) : Char := if c = ',' then '.' else c

/-- The endpoint computed by `getPasvPort` (src/ftp.js lines 35-46). -/
structure PasvEndpoint where
  host : List Char
  port : Int
deriving DecidableEq, Repr

/-- `getPasvPort(text)`: run `RE_PASV` over the text; on a match, the host
is group 1 with commas replaced by dots and the port is
`(parseInt(g2) & 255) * 256 + (parseInt(g3) & 255)`. -/
def getPasvPort (text : List Char) : Option PasvEndpoint :=
  match searchPasv text with
  | none => none
  | some (g1, g2, g3) =>
    some { host := g1.map commaToDot
           port := and255 (parseInt10 g2) * 256 + and255 (parseInt10 g3) }

/-- Decimal digits of `n`, most significant first (the canonical decimal
rendering of a number). -/
def decDigits (n : Nat) : List Char :=
  if h : n < 10 then [Char.ofNat (48 + n)]
  else decDigits (n / 10) ++ [Char.ofNat (48 + n % 10)]
termination_by n
decreasing_by exact Nat.div_lt_self (by omega) (by omega)

/-- The canonical six-number PASV group `h1,h2,h3,h4,p1,p2`. -/
def canonicalPasvGroup (h1 h2 h3 h4 p1 p2 : Nat) : List Char :=
  decDigits h1 ++ (',' :: (decDigits h2 ++ (',' :: (decDigits h3 ++
    (',' :: (decDigits h4 ++ (',' :: (decDigits p1 ++ (',' :: decDigits p2)))))))))

/-! ## The dispatcher (src/ftp.js lines 132-163, 180-188, 217-238, 248-261)

State: `commandQueue`, `ignoreCmdCode`, `inProgress`.  Observable effects
are modelled as events: a callback invocation (identified by the command's
`cbId`) or a write of a command line to the control socket.  Callbacks are
opaque to the model; an invocation is recorded together with its two
arguments `(error, response)`. -/

/-- The error object built by `parse`: `new Error(text || 'Unknown FTP
error.')` with `error.code = response.code`. -/
structure FtpError where
  code : Nat
  text : List Char
deriving DecidableEq, Repr

/-- A parsed server reply (`code`, `text`, with `isMark`/`isError` computed
by the response parser at emission time). -/
structure Response where
  code : Nat
  text : List Char
  isMark : Bool
  isError : Bool
deriving DecidableEq, Repr

/-- The `expectsMark` annotation attached to transfer commands. -/
structure ExpectsMark where
  marks : List Nat
  ignore : Option Nat
deriving DecidableEq, Repr

/-- `expectedMarks` (src/ftp.js lines 27-30). -/
def expectedMarks : ExpectsMark := { marks := [125, 150], ignore := some 226 }

/-- A queued command: its line, an identifier standing for its callback
function and the optional `expectsMark` attached to that callback. -/
structure Command where
  action : List Char
  cbId : Nat
  expectsMark : Option ExpectsMark
deriving DecidableEq, Repr

/-- Dispatcher state. -/
structure FtpState where
  commandQueue : List Command
  ignoreCmdCode : Option Nat
  inProgress : Bool
deriving DecidableEq, Repr

/-- Observable dispatcher events. -/
inductive Ev where
  | cbCall (cbId : Nat) (error : Option FtpError) (resp : Response)
  | send (action : List Char)
deriving DecidableEq, Repr

/-- JS truthiness of the numeric field `expectsMark.ignore` (`undefined`
and `0` are falsy). -/
def truthyNum : Option Nat → Bool
  | none => false
  | some n => n != 0

/-- The error argument `parse` builds from a response (src/ftp.js lines
249-254): non-null exactly when `response.isError`. -/
def respError (r : Response) : Option FtpError :=
  if r.isError then
    some { code := r.code
           text := if r.text = [] then str ("Unknown FTP error.") else r.text }
  else none

/-- `send` (src/ftp.js lines 170-178): a write event, unless the line is
empty (falsy), in which case nothing is written. -/
def sendEv (action : List Char) : List Ev :=
  if action = [] then [] else [Ev.send action]

/-- `nextCmd` (src/ftp.js lines 180-188): when idle and the queue is
non-empty, write the head command's line and set `inProgress`. -/
def nextCmd (s : FtpState) : FtpState × List Ev :=
  match s.commandQueue with
  | [] => (s, [])
  | cmd :: _ =>
    if s.inProgress then (s, [])
    else ({ s with inProgress := true }, sendEv cmd.action)

/-- `parse` (src/ftp.js lines 248-261), called after the head command has
been shifted off the queue: invoke the command's callback with
`(respError r, r)`, clear `inProgress`, then `nextCmd`. -/
def parse (r : Response) (cmd : Command) (s : FtpState) : FtpState × List Ev :=
  let s1 := { s with inProgress := false }
  let (s2, evs) := nextCmd s1
  (s2, Ev.cbCall cmd.cbId (respError r) r :: evs)

/-- `parseResponse` (src/ftp.js lines 132-163). -/
def parseResponse (s : FtpState) (r : Response) : FtpState × List Ev :=
  match s.commandQueue with
  | [] => (s, [])
  | next :: rest =>
    if r.code = 220 then (s, [])
    else
      let step : Option FtpState :=
        if r.isMark then
          match next.expectsMark with
          | none => none
          | some em =>
            if em.marks.contains r.code then
              some (if truthyNum em.ignore then { s with ignoreCmdCode := em.ignore } else s)
            else none
        else some s
      match step with
      | none => (s, [])
      | some s1 =>
        if s1.ignoreCmdCode = some r.code then ({ s1 with ignoreCmdCode := none }, [])
        else parse r next { s1 with commandQueue := rest }

/-- Deliver a sequence of responses to the dispatcher, accumulating events. -/
def runResponses (s : FtpState) : List Response → FtpState × List Ev
  | [] => (s, [])
  | r :: rs =>
    let p := parseResponse s r
    let q := runResponses p.1 rs
    (q.1, p.2 ++ q.2)

/-- Whether an event is a callback invocation. -/
def isCbCall : Ev → Bool
  | .cbCall .. => true
  | .send _ => false

/-- The callback invocations among a list of events. -/
def callbackCalls (evs : List Ev) : List Ev := evs.filter isCbCall

/-- The continuation `runCommand` hands to the implicit auth chain
(src/ftp.js lines 232-237): `function() { self.commandQueue.push(cmd);
self.nextCmd(); }`.  It ignores its arguments, so the original command is
enqueued whatever the auth chain reported. -/
def runCommandAuthCont (error : Option FtpError) (s : FtpState) (cmd : Command) :
    FtpState × List Ev :=
  nextCmd { s with commandQueue := s.commandQueue ++ [cmd] }

/-! ## The auth chain (src/ftp.js lines 321-364) -/

/-- What the `USER` reply callback does next (src/ftp.js lines 338-345). -/
inductive AuthUserNext where
  /-- clear `authenticating` and invoke the chain callback with `error`
  (which is `none` when the unexpected reply was not an error reply) -/
  | fail (error : Option FtpError)
  /-- issue `PASS <pass>` -/
  | sendPass (line : List Char)
deriving DecidableEq, Repr

/-- The `USER` reply callback: any error, or any code outside
`{230, 331, 332}`, aborts; otherwise `PASS` is issued. -/
def authAfterUser (pass : List Char) (error : Option FtpError) (r : Response) :
    AuthUserNext :=
  if error.isSome || !([230, 331, 332].contains r.code) then .fail error
  else .sendPass (runCmdLine (str ("pass")) [pass])

/-- Observable effects of the `PASS` reply callback (src/ftp.js lines
346-362). -/
structure AuthPassEffects where
  /-- `authenticating` is cleared first in every branch -/
  authenticatingAfter : Bool
  /-- whether `authenticated` is set -/
  authenticatedSet : Bool
  /-- raw command lines issued afterwards -/
  sends : List (List Char)
  /-- the argument pair the chain callback is invoked with, or `none` when
  the chain callback is never invoked -/
  callbackArg : Option (Option FtpError × Option Response)
deriving DecidableEq, Repr

/-- The `PASS` reply callback: on error, fail; on `230`/`202`, set
`authenticated`, issue `TYPE I` and then invoke the chain callback with
`(undefined, response)`; on `332`, issue `ACCT ''` and stop; on anything
else, do nothing at all. -/
def authAfterPass (error : Option FtpError) (r : Response) : AuthPassEffects :=
  if error.isSome then
    { authenticatingAfter := false, authenticatedSet := false
      sends := [], callbackArg := some (error, none) }
  else if r.code = 230 || r.code = 202 then
    { authenticatingAfter := false, authenticatedSet := true
      sends := [runCmdLine (str ("type")) [str ("I")]]
      callbackArg := some (none, some r) }
  else if r.code = 332 then
    { authenticatingAfter := false, authenticatedSet := false
      sends := [runCmdLine (str ("acct")) [[]]], callbackArg := none }
  else
    { authenticatingAfter := false, authenticatedSet := false
      sends := [], callbackArg := none }

/-! ## FEAT parsing (src/ftp.js lines 279-312) -/

/-- Split on the regex `\r\n|\n` (JS `String.prototype.split`; the
alternation prefers `\r\n` where both alternatives match). -/
def splitNL : List Char → List (List Char)
  | [] => [[]]
  | '\r' :: '\n' :: rest => [] :: splitNL rest
  | '\n' :: rest => [] :: splitNL rest
  | c :: rest =>
    match splitNL rest with
    | [] => [[c]]
    | line :: ls => (c :: line) :: ls

/-- `_parseFeats` (src/ftp.js lines 279-290): split into lines, drop the
header and footer (`slice(1, -1)`), trim and lowercase each line, drop
empties. -/
def parseFeats (features : List Char) : List (List Char) :=
  ((((splitNL features).drop 1).dropLast).map
    (fun feat => jsLower (jsTrim feat))).filter (fun feat => feat ≠ [])

/-- The feature cache stored by `getFeatures` (src/ftp.js line 302):
`self.features = error ? [] : self._parseFeats(response.text)`. -/
def getFeaturesCache (error : Bool) (text : List Char) : List (List Char) :=
  if error then [] else parseFeats text

/-- Restatement of the spec's words, for comparison with `parseFeats`:
"parse the reply body minus first and last lines, trim each, lowercase,
drop empties". -/
def featsSpecSide (text : List Char) : List (List Char) :=
  let lines := splitNL text
  let body := (lines.drop 1).take (lines.length - 2)
  (body.map (fun l => jsLower (jsTrim l))).filter (fun l => l ≠ [])

/-! ## getPasvSocket (src/ftp.js lines 663-688) -/

/-- Outcome of the `PASV` reply callback in `getPasvSocket`. -/
inductive PasvOutcome where
  /-- the `PASV` command itself failed; its error is forwarded -/
  | cmdError (e : FtpError)
  /-- `getPasvPort` found no match: `new Error('Bad passive host/port
  combination')` -/
  | err (msg : List Char)
  /-- `Net.createConnection(options)` on the parsed endpoint -/
  | connectTo (ep : PasvEndpoint)
deriving DecidableEq, Repr

/-- The `PASV` reply callback of `getPasvSocket`. -/
def getPasvSocketOutcome (error : Option FtpError) (r : Response) : PasvOutcome :=
  match error with
  | some e => .cmdError e
  | none =>
    match getPasvPort r.text with
    | none => .err (str ("Bad passive host/port combination"))
    | some ep => .connectTo ep

/-! ## put: the fs.stat callback (src/ftp.js lines 584-598) -/

/-- The parts of an `fs.Stats` record the code reads. -/
structure Stats where
  isDir : Bool
  size : Nat
deriving DecidableEq, Repr

/-- An `fs.stat` error; `code` is the errno string (e.g. `ENOENT`). -/
structure StatError where
  code : List Char
deriving DecidableEq, Repr

/-- What the stat callback in `put` does. -/
inductive PutStatStep where
  /-- `callback(new Error("Local file doesn't exist."))` -/
  | localMissing
  /-- `callback(new Error('Local path cannot be a directory'))` -/
  | dirError
  /-- `stats.isDirectory()` is accessed while `stats` is `undefined`:
  a TypeError is thrown -/
  | typeErrorCrash
  /-- open the local read stream with this `totalSize` -/
  | proceed (totalSize : Nat)
deriving DecidableEq, Repr

/-- JS `error && error.code === 'ENOENT'`. -/
def isEnoent : Option StatError → Bool
  | some e => e.code = str ("ENOENT")
  | none => false

/-- The `fs.stat` callback in `put` for a string source: only
`error && error.code === 'ENOENT'` is guarded before `stats.isDirectory()`
is accessed. -/
def putStatCallback (error : Option StatError) (stats : Option Stats) : PutStatStep :=
  if isEnoent error then
    .localMissing
  else
    match stats with
    | none => .typeErrorCrash
    | some st =>
      if st.isDir then .dirError
      else .proceed (if error.isSome then 0 else st.size)

/-! ## Helper lemmas -/

lemma takeWhile_all {α : Type} {p : α → Bool} {l : List α}
    (h : ∀ c ∈ l, p c = true) : l.takeWhile p = l := by
  induction l with
  | nil => rfl
  | cons a t ih =>
    simp only [List.takeWhile_cons, h a (List.mem_cons_self a t), if_true]
    exact congrArg (a :: ·) (ih fun c hc => h c (List.mem_cons_of_mem a hc))

lemma dropWhile_all {α : Type} {p : α → Bool} {l : List α}
    (h : ∀ c ∈ l, p c = true) : l.dropWhile p = [] := by
  induction l with
  | nil => rfl
  | cons a t ih =>
    simp only [List.dropWhile_cons, h a (List.mem_cons_self a t), if_true]
    exact ih fun c hc => h c (List.mem_cons_of_mem a hc)

lemma takeWhile_all_append {α : Type} {p : α → Bool} {l : List α} (r : List α)
    (h : ∀ c ∈ l, p c = true) : (l ++ r).takeWhile p = l ++ r.takeWhile p := by
  induction l with
  | nil => rfl
  | cons a t ih =>
    simp only [List.cons_append, List.takeWhile_cons,
      h a (List.mem_cons_self a t), if_true]
    exact congrArg (a :: ·) (ih fun c hc => h c (List.mem_cons_of_mem a hc))

lemma dropWhile_all_append {α : Type} {p : α → Bool} {l : List α} (r : List α)
    (h : ∀ c ∈ l, p c = true) : (l ++ r).dropWhile p = r.dropWhile p := by
  induction l with
  | nil => rfl
  | cons a t ih =>
    simp only [List.cons_append, List.dropWhile_cons,
      h a (List.mem_cons_self a t), if_true]
    exact ih fun c hc => h c (List.mem_cons_of_mem a hc)

lemma digitChar_isDigit {d : Nat} (h : d < 10) :
    (Char.ofNat (48 + d)).isDigit = true := by
  interval_cases d <;> decide

lemma digitVal_digitChar {d : Nat} (h : d < 10) :
    digitVal (Char.ofNat (48 + d)) = d := by
  interval_cases d <;> decide

lemma digit_ne {c c' : Char} (h : c.isDigit = true) (h' : c'.isDigit = false) :
    c ≠ c' := by
  intro e
  rw [e, h'] at h
  exact Bool.noConfusion h

lemma isPasvChar_of_digit {c : Char} (h : c.isDigit = true) :
    isPasvChar c = true := by
  simp [isPasvChar, h]

lemma isJsWs_of_digit {c : Char} (h : c.isDigit = true) : isJsWs c = false := by
  have e1 : c ≠ ' ' := digit_ne h (by decide)
  have e2 : c ≠ '\t' := digit_ne h (by decide)
  have e3 : c ≠ '\n' := digit_ne h (by decide)
  have e4 : c ≠ '\r' := digit_ne h (by decide)
  have e5 : c ≠ '\x0b' := digit_ne h (by decide)
  have e6 : c ≠ '\x0c' := digit_ne h (by decide)
  have e7 : c ≠ '\u00A0' := digit_ne h (by decide)
  have e8 : c ≠ '\uFEFF' := digit_ne h (by decide)
  simp [isJsWs, e1, e2, e3, e4, e5, e6, e7, e8]

lemma decDigits_not_nil (n : Nat) : decDigits n ≠ [] := by
  rw [decDigits]
  split
  · exact List.cons_ne_nil _ _
  · exact fun h => List.append_ne_nil_of_right_ne_nil _ (List.cons_ne_nil _ _) h

lemma decDigits_all_digit (n : Nat) : ∀ c ∈ decDigits n, c.isDigit = true := by
  induction n using decDigits.induct with
  | case1 n h =>
    rw [decDigits, dif_pos h]
    intro c hc
    rw [List.mem_singleton] at hc
    exact hc ▸ digitChar_isDigit h
  | case2 n h ih =>
    rw [decDigits, dif_neg h]
    intro c hc
    rcases List.mem_append.1 hc with hm | hm
    · exact ih c hm
    · rw [List.mem_singleton] at hm
      exact hm ▸ digitChar_isDigit (Nat.mod_lt _ (by omega))

lemma digitsVal_append_one (l : List Char) (c : Char) :
    digitsVal (l ++ [c]) = digitsVal l * 10 + digitVal c := by
  simp [digitsVal, List.foldl_append]

lemma digitsVal_decDigits (n : Nat) : digitsVal (decDigits n) = n := by
  induction n using decDigits.induct with
  | case1 n h =>
    rw [decDigits, dif_pos h]
    simp [digitsVal, digitVal_digitChar h]
  | case2 n h ih =>
    rw [decDigits, dif_neg h, digitsVal_append_one, ih,
      digitVal_digitChar (Nat.mod_lt _ (by omega))]
    omega

lemma parseInt10_decDigits (n : Nat) : parseInt10 (decDigits n) = some (n : Int) := by
  obtain ⟨c, cs, heq⟩ : ∃ c cs, decDigits n = c :: cs := by
    cases h : decDigits n with
    | nil => exact absurd h (decDigits_not_nil n)
    | cons c cs => exact ⟨c, cs, rfl⟩
  have hall : ∀ x ∈ c :: cs, x.isDigit = true := heq ▸ decDigits_all_digit n
  have hc : c.isDigit = true := hall c (List.mem_cons_self c cs)
  rw [parseInt10, heq]
  rw [List.dropWhile_cons, isJsWs_of_digit hc]
  simp only [Bool.false_eq_true, if_false]
  rw [if_neg (digit_ne hc (by decide)), if_neg (digit_ne hc (by decide))]
  rw [leadDigits, takeWhile_all hall]
  rw [if_neg (List.cons_ne_nil c cs), ← heq, digitsVal_decDigits]
  rfl

lemma munchNum_mid {ds : List Char} (hne : ds ≠ [])
    (hall : ∀ c ∈ ds, isPasvChar c = true) (r : List Char) :
    munchNum (ds ++ ',' :: r) = some (ds, ',' :: r) := by
  have ht : (ds ++ ',' :: r).takeWhile isPasvChar = ds := by
    rw [takeWhile_all_append _ hall, List.takeWhile_cons]
    simp [isPasvChar]
  have hd : (ds ++ ',' :: r).dropWhile isPasvChar = ',' :: r := by
    rw [dropWhile_all_append _ hall, List.dropWhile_cons]
    simp [isPasvChar]
  rw [munchNum, ht, hd, if_neg hne]

lemma munchNum_last {ds : List Char} (hne : ds ≠ [])
    (hall : ∀ c ∈ ds, isPasvChar c = true) :
    munchNum ds = some (ds, []) := by
  rw [munchNum, takeWhile_all hall, dropWhile_all hall, if_neg hne]

lemma munchNumComma_mid {ds : List Char} (hne : ds ≠ [])
    (hall : ∀ c ∈ ds, isPasvChar c = true) (r : List Char) :
    munchNumComma (ds ++ ',' :: r) = some (ds, r) := by
  rw [munchNumComma, munchNum_mid hne hall r]
  rfl

lemma map_commaToDot_digits {d : List Char} (h : ∀ c ∈ d, c.isDigit = true) :
    d.map commaToDot = d := by
  induction d with
  | nil => rfl
  | cons a t ih =>
    have ha := h a (List.mem_cons_self a t)
    simp only [List.map_cons, commaToDot,
      if_neg (digit_ne ha (by decide) : a ≠ ','),
      ih fun c hc => h c (List.mem_cons_of_mem a hc)]

lemma tryMatchAt_canonical {d1 d2 d3 d4 d5 d6 : List Char}
    (n1 : d1 ≠ []) (n2 : d2 ≠ []) (n3 : d3 ≠ []) (n4 : d4 ≠ [])
    (n5 : d5 ≠ []) (n6 : d6 ≠ [])
    (a1 : ∀ c ∈ d1, isPasvChar c = true) (a2 : ∀ c ∈ d2, isPasvChar c = true)
    (a3 : ∀ c ∈ d3, isPasvChar c = true) (a4 : ∀ c ∈ d4, isPasvChar c = true)
    (a5 : ∀ c ∈ d5, isPasvChar c = true) (a6 : ∀ c ∈ d6, isPasvChar c = true) :
    tryMatchAt (d1 ++ (',' :: (d2 ++ (',' :: (d3 ++ (',' :: (d4 ++ (',' ::
        (d5 ++ (',' :: d6)))))))))) =
      some (d1 ++ (',' :: (d2 ++ (',' :: (d3 ++ (',' :: d4))))), d5, d6) := by
  simp only [tryMatchAt, Option.bind_eq_bind']
  rw [munchNumComma_mid n1 a1]
  simp only [Option.some_bind]
  rw [munchNumComma_mid n2 a2]
  simp only [Option.some_bind]
  rw [munchNumComma_mid n3 a3]
  simp only [Option.some_bind]
  rw [munchNumComma_mid n4 a4]
  simp only [Option.some_bind]
  rw [munchNumComma_mid n5 a5]
  simp only [Option.some_bind]
  rw [munchNum_last n6 a6]
  rfl

lemma searchPasv_head {l : List Char} {g : List Char × List Char × List Char}
    (hne : l ≠ []) (h : tryMatchAt l = some g) : searchPasv l = some g := by
  cases l with
  | nil => exact absurd rfl hne
  | cons c r => rw [searchPasv, h]

lemma onceRun_called {α : Type} (l : List α) : onceRun true l = (true, []) := by
  induction l with
  | nil => rfl
  | cons a t ih => rw [onceRun, if_pos rfl, ih]

lemma callbackCalls_append (l1 l2 : List Ev) :
    callbackCalls (l1 ++ l2) = callbackCalls l1 ++ callbackCalls l2 :=
  List.filter_append l1 l2

lemma callbackCalls_sendEv (a : List Char) : callbackCalls (sendEv a) = [] := by
  rw [sendEv]
  split <;> rfl

lemma callbackCalls_nextCmd (s : FtpState) : callbackCalls (nextCmd s).2 = [] := by
  obtain ⟨q, ign, ip⟩ := s
  cases q with
  | nil => rfl
  | cons cmd t =>
    cases ip
    · simpa [nextCmd] using callbackCalls_sendEv cmd.action
    · simp [nextCmd, callbackCalls]

lemma parse_eq (r : Response) (cmd : Command) (s : FtpState) :
    parse r cmd s =
      ((nextCmd { s with inProgress := false }).1,
        Ev.cbCall cmd.cbId (respError r) r :: (nextCmd { s with inProgress := false }).2) := by
  rw [parse]

lemma parseResponse_nil {s : FtpState} (r : Response) (hq : s.commandQueue = []) :
    parseResponse s r = (s, []) := by
  obtain ⟨q, ign, ip⟩ := s
  simp only at hq
  subst hq
  rfl

lemma parseResponse_greeting {s : FtpState} {r : Response} (hc : r.code = 220) :
    parseResponse s r = (s, []) := by
  obtain ⟨q, ign, ip⟩ := s
  cases q with
  | nil => rfl
  | cons cmd rest => simp [parseResponse, hc]

lemma parseResponse_unexpected_mark {s : FtpState} {cmd : Command}
    {rest : List Command} {r : Response}
    (hq : s.commandQueue = cmd :: rest) (h220 : r.code ≠ 220) (hm : r.isMark = true)
    (hu : cmd.expectsMark = none ∨
      ∃ em, cmd.expectsMark = some em ∧ r.code ∉ em.marks) :
    parseResponse s r = (s, []) := by
  obtain ⟨q, ign, ip⟩ := s
  simp only at hq
  subst hq
  rcases hu with hu | ⟨em, hem, hnc⟩
  · simp [parseResponse, h220, hm, hu]
  · simp [parseResponse, h220, hm, hem, hnc]

lemma parseResponse_expected_mark {s : FtpState} {cmd : Command}
    {rest : List Command} {r : Response}
    (hq : s.commandQueue = cmd :: rest) (hem : cmd.expectsMark = some expectedMarks)
    (hm : r.isMark = true) (hc : r.code = 125 ∨ r.code = 150) :
    parseResponse s r =
      parse r cmd { s with ignoreCmdCode := some 226, commandQueue := rest } := by
  obtain ⟨q, ign, ip⟩ := s
  simp only at hq
  subst hq
  have h220 : ¬(r.code = 220) := by rcases hc with h | h <;> omega
  have hne : ¬((some 226 : Option Nat) = some r.code) := by
    rcases hc with h | h <;> simp [h]
  simp [parseResponse, h220, hm, hem, truthyNum, expectedMarks, hc, hne]

lemma parseResponse_swallow {s : FtpState} {cmd : Command}
    {rest : List Command} {r : Response}
    (hq : s.commandQueue = cmd :: rest) (h220 : r.code ≠ 220) (hm : r.isMark = false)
    (hi : s.ignoreCmdCode = some r.code) :
    parseResponse s r = ({ s with ignoreCmdCode := none }, []) := by
  obtain ⟨q, ign, ip⟩ := s
  simp only at hq hi
  subst hq
  subst hi
  simp [parseResponse, h220, hm]

lemma parseResponse_deliver {s : FtpState} {cmd : Command}
    {rest : List Command} {r : Response}
    (hq : s.commandQueue = cmd :: rest) (h220 : r.code ≠ 220) (hm : r.isMark = false)
    (hi : s.ignoreCmdCode ≠ some r.code) :
    parseResponse s r = parse r cmd { s with commandQueue := rest } := by
  obtain ⟨q, ign, ip⟩ := s
  simp only at hq hi
  subst hq
  simp [parseResponse, h220, hm, hi]

lemma nextCmd_queue (s : FtpState) : (nextCmd s).1.commandQueue = s.commandQueue := by
  obtain ⟨q, ign, ip⟩ := s
  cases q with
  | nil => rfl
  | cons cmd t => cases ip <;> rfl

lemma nextCmd_ignore (s : FtpState) : (nextCmd s).1.ignoreCmdCode = s.ignoreCmdCode := by
  obtain ⟨q, ign, ip⟩ := s
  cases q with
  | nil => rfl
  | cons cmd t => cases ip <;> rfl

lemma callbackCalls_cons_cb (i : Nat) (e : Option FtpError) (r : Response) (l : List Ev) :
    callbackCalls (Ev.cbCall i e r :: l) = Ev.cbCall i e r :: callbackCalls l := by
  simp [callbackCalls, isCbCall]

lemma filter_isCbCall_nextCmd (s : FtpState) :
    List.filter isCbCall (nextCmd s).2 = [] :=
  callbackCalls_nextCmd s

/-! ## Claims -/

/-- C1: for a head command enqueued with `expects_mark = {marks:{125,150},
ignore:226}`, when a reply with code 125 or 150 arrives its callback is
invoked exactly once, with the mark response, and the subsequent terminal
reply with code 226 is silently consumed without reaching any command's
callback. -/
theorem c1_mark_delivered_once_226_swallowed
    (s : FtpState) (cmd : Command) (rest : List Command) (r1 r2 : Response)
    (hq : s.commandQueue = cmd :: rest)
    (hem : cmd.expectsMark = some expectedMarks)
    (h1m : r1.isMark = true) (h1c : r1.code = 125 ∨ r1.code = 150)
    (h1e : r1.isError = false)
    (h2m : r2.isMark = false) (h2c : r2.code = 226) :
    callbackCalls (runResponses s [r1, r2]).2 = [Ev.cbCall cmd.cbId none r1] := by
  have hp1 := parseResponse_expected_mark hq hem h1m h1c
  rw [parse_eq] at hp1
  have herr : respError r1 = none := by simp [respError, h1e]
  simp only [runResponses, hp1]
  have hq2 : (nextCmd { s with ignoreCmdCode := some 226, commandQueue := rest, inProgress := false }).1.commandQueue = rest := by rw [nextCmd_queue]
  have hi2 : (nextCmd { s with ignoreCmdCode := some 226, commandQueue := rest, inProgress := false }).1.ignoreCmdCode = some 226 := by rw [nextCmd_ignore]
  have h2none : (parseResponse (nextCmd { s with ignoreCmdCode := some 226, commandQueue := rest, inProgress := false }).1 r2).2 = [] := by
    cases rest with
    | nil => rw [parseResponse_nil r2 hq2]
    | cons c2 rs =>
      rw [parseResponse_swallow hq2 (by omega) h2m (by rw [hi2, h2c])]
  rw [herr, h2none]
  simp [callbackCalls, isCbCall, filter_isCbCall_nextCmd]

/-- C1 witness: a concrete `RETR`-style command receiving `150` then `226`. -/
theorem c1_witness :
    callbackCalls (runResponses
      { commandQueue := [{ action := str ("retr a"), cbId := 7, expectsMark := some expectedMarks }],
        ignoreCmdCode := none, inProgress := true }
      [{ code := 150, text := str ("ok"), isMark := true, isError := false },
       { code := 226, text := str ("done"), isMark := false, isError := false }]).2
    = [Ev.cbCall 7 none { code := 150, text := str ("ok"), isMark := true, isError := false }] :=
  c1_mark_delivered_once_226_swallowed _ _ _ _ _ rfl rfl rfl (Or.inr rfl) rfl rfl rfl

/-- C2 counterexample: the claim says the command is kept at the head of the
queue on an expected mark; in the code the expected-mark branch falls
through to `parse`, which shifts the command off the queue and invokes its
callback with the mark response. -/
theorem c2_counterexample :
    (parseResponse
      { commandQueue := [{ action := str ("list"), cbId := 0, expectsMark := some expectedMarks }],
        ignoreCmdCode := none, inProgress := true }
      { code := 150, text := [], isMark := true, isError := false }).1.commandQueue = []
    ∧ callbackCalls (parseResponse
      { commandQueue := [{ action := str ("list"), cbId := 0, expectsMark := some expectedMarks }],
        ignoreCmdCode := none, inProgress := true }
      { code := 150, text := [], isMark := true, isError := false }).2
      = [Ev.cbCall 0 none { code := 150, text := [], isMark := true, isError := false }] :=
  ⟨rfl, rfl⟩

/-- C2 amended: when a mark in the head command's `expects_mark.marks`
arrives, the dispatcher arms `ignore_next_code = 226` and pops the command
from the queue, invoking its callback with the mark response; the command
is not kept at the head. -/
theorem c2_mark_arms_ignore_and_pops
    (s : FtpState) (cmd : Command) (rest : List Command) (r : Response)
    (hq : s.commandQueue = cmd :: rest)
    (hem : cmd.expectsMark = some expectedMarks)
    (hm : r.isMark = true) (hc : r.code = 125 ∨ r.code = 150) :
    (parseResponse s r).1.ignoreCmdCode = some 226 ∧
    (parseResponse s r).1.commandQueue = rest ∧
    callbackCalls (parseResponse s r).2 = [Ev.cbCall cmd.cbId (respError r) r] := by
  have hp := parseResponse_expected_mark hq hem hm hc
  rw [parse_eq] at hp
  rw [hp]
  refine ⟨?_, ?_, ?_⟩
  · rw [nextCmd_ignore]
  · rw [nextCmd_queue]
  · rw [callbackCalls_cons_cb, callbackCalls_nextCmd]

/-- C2 amended witness: a concrete command receiving an expected `125`. -/
theorem c2_witness :
    (parseResponse
      { commandQueue := [{ action := str ("stor b"), cbId := 4, expectsMark := some expectedMarks }],
        ignoreCmdCode := none, inProgress := true }
      { code := 125, text := str ("go"), isMark := true, isError := false }).1.ignoreCmdCode
      = some 226
    ∧ (parseResponse
      { commandQueue := [{ action := str ("stor b"), cbId := 4, expectsMark := some expectedMarks }],
        ignoreCmdCode := none, inProgress := true }
      { code := 125, text := str ("go"), isMark := true, isError := false }).1.commandQueue
      = []
    ∧ callbackCalls (parseResponse
      { commandQueue := [{ action := str ("stor b"), cbId := 4, expectsMark := some expectedMarks }],
        ignoreCmdCode := none, inProgress := true }
      { code := 125, text := str ("go"), isMark := true, isError := false }).2
      = [Ev.cbCall 4 (respError { code := 125, text := str ("go"), isMark := true, isError := false }) { code := 125, text := str ("go"), isMark := true, isError := false }] :=
  c2_mark_arms_ignore_and_pops _ _ _ _ rfl rfl rfl (Or.inl rfl)

/-- C4: a response arriving on an empty queue, a `220` greeting, or a mark
the head command does not expect, is dropped: no callback is invoked, and
the whole state (queue, `ignore_next_code`, `in_progress`) is unchanged. -/
theorem c4_unmatched_responses_dropped (s : FtpState) (r : Response)
    (h : s.commandQueue = [] ∨ r.code = 220 ∨
      ∃ cmd rest, s.commandQueue = cmd :: rest ∧ r.isMark = true ∧
        (cmd.expectsMark = none ∨
          ∃ em, cmd.expectsMark = some em ∧ r.code ∉ em.marks)) :
    parseResponse s r = (s, []) := by
  rcases h with h | h | ⟨cmd, rest, hq, hm, hu⟩
  · exact parseResponse_nil r h
  · exact parseResponse_greeting h
  · by_cases h220 : r.code = 220
    · exact parseResponse_greeting h220
    · exact parseResponse_unexpected_mark hq h220 hm hu

/-- C4 witness: an unsolicited `150` with an empty queue is dropped. -/
theorem c4_witness :
    parseResponse { commandQueue := [], ignoreCmdCode := none, inProgress := false }
      { code := 150, text := str ("opening"), isMark := true, isError := false }
    = ({ commandQueue := [], ignoreCmdCode := none, inProgress := false }, []) :=
  c4_unmatched_responses_dropped _ _ (Or.inl rfl)

/-- C9: a response arriving while the queue is empty is dropped without
clearing an armed `ignore_next_code`; the armed code survives, so the next
non-mark response bearing that code is swallowed even when it terminates a
later, unrelated command. -/
theorem c9_armed_ignore_survives_empty_queue
    (s : FtpState) (c : Nat) (r1 r2 : Response) (cmd2 : Command) (rest : List Command)
    (hq : s.commandQueue = []) (hi : s.ignoreCmdCode = some c)
    (h2m : r2.isMark = false) (h2c : r2.code = c) (h220 : c ≠ 220) :
    parseResponse s r1 = (s, []) ∧
    parseResponse { s with commandQueue := cmd2 :: rest } r2 =
      ({ s with commandQueue := cmd2 :: rest, ignoreCmdCode := none }, []) := by
  refine ⟨parseResponse_nil r1 hq, ?_⟩
  have h220' : r2.code ≠ 220 := by rw [h2c]; exact h220
  have hi2 : ({ s with commandQueue := cmd2 :: rest } : FtpState).ignoreCmdCode
      = some r2.code := by
    show s.ignoreCmdCode = some r2.code
    rw [hi, h2c]
  exact parseResponse_swallow rfl h220' h2m hi2

/-- C9 witness: `226` armed, queue empties, a later command's `226` is
swallowed. -/
theorem c9_witness :
    parseResponse { commandQueue := [], ignoreCmdCode := some 226, inProgress := false }
      { code := 257, text := str ("pwd ok"), isMark := false, isError := false }
    = ({ commandQueue := [], ignoreCmdCode := some 226, inProgress := false }, []) ∧
    parseResponse { commandQueue := [{ action := str ("pwd"), cbId := 9, expectsMark := none }], ignoreCmdCode := some 226, inProgress := false }
      { code := 226, text := str ("done"), isMark := false, isError := false }
    = ({ commandQueue := [{ action := str ("pwd"), cbId := 9, expectsMark := none }], ignoreCmdCode := none, inProgress := false }, []) :=
  c9_armed_ignore_survives_empty_queue _ 226 _ _ _ _ rfl rfl rfl rfl (by decide)

/-- C3: parsing a reply text consisting of the canonical six-number group
`h1,h2,h3,h4,p1,p2` (each component in `[0,255]`) yields
`host = h1.h2.h3.h4` (commas replaced by dots) and `port = p1*256 + p2`;
and for any reply text where the PASV regex finds no match,
`getPasvSocket` fails with "Bad passive host/port combination". -/
theorem c3_pasv_roundtrip_and_no_match (h1 h2 h3 h4 p1 p2 : Nat)
    (b1 : h1 ≤ 255) (b2 : h2 ≤ 255) (b3 : h3 ≤ 255) (b4 : h4 ≤ 255)
    (b5 : p1 ≤ 255) (b6 : p2 ≤ 255) :
    getPasvPort (canonicalPasvGroup h1 h2 h3 h4 p1 p2) =
      some { host := decDigits h1 ++ ('.' :: (decDigits h2 ++ ('.' :: (decDigits h3 ++
               ('.' :: decDigits h4)))))
             port := (p1 : Int) * 256 + (p2 : Int) } ∧
    (∀ r : Response, searchPasv r.text = none →
      getPasvSocketOutcome none r =
        PasvOutcome.err (str ("Bad passive host/port combination"))) := by
  constructor
  · have pas : ∀ k : Nat, ∀ c ∈ decDigits k, isPasvChar c = true := fun k c hc =>
      isPasvChar_of_digit (decDigits_all_digit k c hc)
    have hm := tryMatchAt_canonical (decDigits_not_nil h1) (decDigits_not_nil h2)
      (decDigits_not_nil h3) (decDigits_not_nil h4) (decDigits_not_nil p1)
      (decDigits_not_nil p2) (pas h1) (pas h2) (pas h3) (pas h4) (pas p1) (pas p2)
    have hne : decDigits h1 ++ (',' :: (decDigits h2 ++ (',' :: (decDigits h3 ++
        (',' :: (decDigits h4 ++ (',' :: (decDigits p1 ++
        (',' :: decDigits p2))))))))) ≠ [] := by
      intro hnil
      exact decDigits_not_nil h1 (List.append_eq_nil.1 hnil).1
    have hs := searchPasv_head hne hm
    have hhost : (decDigits h1 ++ (',' :: (decDigits h2 ++ (',' :: (decDigits h3 ++
        (',' :: decDigits h4)))))).map commaToDot
        = decDigits h1 ++ ('.' :: (decDigits h2 ++ ('.' :: (decDigits h3 ++
          ('.' :: decDigits h4))))) := by
      simp only [List.map_append, List.map_cons]
      rw [map_commaToDot_digits (decDigits_all_digit h1),
        map_commaToDot_digits (decDigits_all_digit h2),
        map_commaToDot_digits (decDigits_all_digit h3),
        map_commaToDot_digits (decDigits_all_digit h4)]
      rfl
    have hport : and255 (parseInt10 (decDigits p1)) * 256 +
        and255 (parseInt10 (decDigits p2)) = (p1 : Int) * 256 + (p2 : Int) := by
      rw [parseInt10_decDigits, parseInt10_decDigits, and255, and255]
      omega
    simp only [canonicalPasvGroup, getPasvPort, hs, hhost, hport]
  · intro r hn
    simp [getPasvSocketOutcome, getPasvPort, hn]

/-- C3 witness: `127,0,0,1,10,20` parses to `127.0.0.1:2580`, and a
matchless reply fails with the fixed error message. -/
theorem c3_witness :
    getPasvPort (canonicalPasvGroup 127 0 0 1 10 20) =
      some { host := str ("127.0.0.1"), port := 2580 } ∧
    getPasvSocketOutcome none
      { code := 425, text := str ("cannot open data connection"), isMark := false,
        isError := true }
    = PasvOutcome.err (str ("Bad passive host/port combination")) := by
  have h := c3_pasv_roundtrip_and_no_match 127 0 0 1 10 20 (by decide) (by decide)
    (by decide) (by decide) (by decide) (by decide)
  have e127 : decDigits 127 = str ("127") := by
    rw [decDigits, dif_neg (by decide), decDigits, dif_neg (by decide),
      decDigits, dif_pos (by decide)]
    rfl
  have e0 : decDigits 0 = str ("0") := by
    rw [decDigits, dif_pos (by decide)]
    rfl
  have e1 : decDigits 1 = str ("1") := by
    rw [decDigits, dif_pos (by decide)]
    rfl
  have e10 : decDigits 10 = str ("10") := by
    rw [decDigits, dif_neg (by decide), decDigits, dif_pos (by decide)]
    rfl
  have e20 : decDigits 20 = str ("20") := by
    rw [decDigits, dif_neg (by decide), decDigits, dif_pos (by decide)]
    rfl
  refine ⟨h.1.trans ?_, h.2 _ (by decide)⟩
  rw [e127, e0, e1]
  decide

/-- C5 counterexample: a `USER` reply with code `230` (not 331/332) still
makes the client issue `PASS`, and after a failed `USER` (code 530, an
error) `runCommand`'s continuation still enqueues the original command, so
the original command is executed rather than failed. -/
theorem c5_counterexample :
    authAfterUser (str ("@anonymous")) none
      { code := 230, text := str ("logged in"), isMark := false, isError := false }
      = AuthUserNext.sendPass (runCmdLine (str ("pass")) [str ("@anonymous")]) ∧
    authAfterUser (str ("@anonymous"))
      (some { code := 530, text := str ("not logged in") })
      { code := 530, text := str ("not logged in"), isMark := false, isError := true }
      = AuthUserNext.fail (some { code := 530, text := str ("not logged in") }) ∧
    (runCommandAuthCont (some { code := 530, text := str ("not logged in") })
      { commandQueue := [], ignoreCmdCode := none, inProgress := false }
      { action := str ("pwd"), cbId := 3, expectsMark := none }).1.commandQueue
      = [{ action := str ("pwd"), cbId := 3, expectsMark := none }] :=
  ⟨rfl, rfl, rfl⟩

/-- C5 amended: the `USER` reply is accepted exactly when it carries no
error and its code is 230, 331 or 332 — `PASS` is issued in all three
cases, 230 included; any other reply aborts the chain, invoking the chain
callback with the error (`none` when the unexpected reply was not an error
reply), and the continuation installed by `runCommand` ignores that error
and enqueues the original command regardless, so the original command is
still executed. -/
theorem c5_user_reply_handling (pass : List Char) (error : Option FtpError)
    (r : Response) (s : FtpState) (cmd : Command) :
    (authAfterUser pass error r = AuthUserNext.sendPass (runCmdLine (str ("pass")) [pass])
      ↔ error = none ∧ (r.code = 230 ∨ r.code = 331 ∨ r.code = 332)) ∧
    (authAfterUser pass error r = AuthUserNext.sendPass (runCmdLine (str ("pass")) [pass])
      ∨ authAfterUser pass error r = AuthUserNext.fail error) ∧
    (runCommandAuthCont error s cmd).1.commandQueue = s.commandQueue ++ [cmd] := by
  refine ⟨?_, ?_, ?_⟩
  · cases error with
    | none =>
      by_cases hcode : r.code = 230 ∨ r.code = 331 ∨ r.code = 332
      · simp [authAfterUser, List.contains, hcode]
      · simp [authAfterUser, List.contains, hcode]
    | some e => simp [authAfterUser]
  · rw [authAfterUser]
    split
    · exact Or.inr rfl
    · exact Or.inl rfl
  · rw [runCommandAuthCont, nextCmd_queue]

/-- C6: a `once`-wrapped callback executes its wrapped function at most
once, on the first invocation only, for every possible sequence of
invocation attempts (this is the guard every transfer operation wraps its
user callback in). -/
theorem c6_once_guard (α : Type) (calls : List α) :
    (onceRun false calls).2 = calls.take 1 ∧ (onceRun false calls).2.length ≤ 1 := by
  cases calls with
  | nil => exact ⟨rfl, Nat.zero_le 1⟩
  | cons a t =>
    constructor
    · simp [onceRun, onceRun_called]
    · simp [onceRun, onceRun_called]

/-- C7: the cached feature set equals the reply body minus its first and
last lines, each remaining line trimmed and lowercased, empty lines
dropped; a FEAT error yields the empty feature set; on the spec's S1 reply
the cache is `{"utf8", "epsv"}`. -/
theorem c7_features_cache (err : Bool) (text : List Char) :
    getFeaturesCache err text = (if err then [] else featsSpecSide text) ∧
    parseFeats (str ("211-Features:\r\n UTF8\r\n EPSV\r\n211 End"))
      = [str ("utf8"), str ("epsv")] := by
  constructor
  · cases err
    · show parseFeats text = featsSpecSide text
      rw [parseFeats, featsSpecSide]
      have hlen : (splitNL text).length - 1 - 1 = (splitNL text).length - 2 := by omega
      rw [List.dropLast_eq_take, List.length_drop, hlen]
    · rfl
  · decide

/-- C8: when the `PASS` reply has code `332`, the client issues `ACCT ''`
(the line written is `acct`) and the auth chain's originating callback is
never invoked afterwards, with neither a success response nor an error. -/
theorem c8_pass_332_acct_and_no_callback (r : Response) (h : r.code = 332) :
    authAfterPass none r =
      { authenticatingAfter := false, authenticatedSet := false,
        sends := [str ("acct")], callbackArg := none } := by
  obtain ⟨code, text, im, ie⟩ := r
  simp only at h
  subst h
  rfl

/-- C8 witness: a concrete `332` reply to `PASS`. -/
theorem c8_witness :
    authAfterPass none { code := 332, text := str ("need account"), isMark := false, isError := false } =
      { authenticatingAfter := false, authenticatedSet := false,
        sends := [str ("acct")], callbackArg := none } :=
  c8_pass_332_acct_and_no_callback _ rfl

/-- C10 counterexample: an `fs.stat` error whose code is not `ENOENT`
(here `EACCES`) is not caught by any guard: `stats.isDirectory()` is
accessed while `stats` is absent, a TypeError. -/
theorem c10_counterexample :
    putStatCallback (some { code := str ("EACCES") }) none
      = PutStatStep.typeErrorCrash := rfl

/-- C10 amended: only the `ENOENT` stat error is caught before the
`stats.isDirectory()` access; a stat error with any other code reaches
that access with no stats record present (a TypeError), while `ENOENT`
yields "Local file doesn't exist." and a successful stat never crashes. -/
theorem c10_stat_guard_only_enoent (e : StatError) (st : Stats) (stats : Option Stats)
    (hne : e.code ≠ str ("ENOENT")) :
    putStatCallback (some e) none = PutStatStep.typeErrorCrash ∧
    putStatCallback (some { code := str ("ENOENT") }) stats = PutStatStep.localMissing ∧
    putStatCallback none (some st) ≠ PutStatStep.typeErrorCrash := by
  refine ⟨?_, rfl, ?_⟩
  · have hen : isEnoent (some e) = false := by simp [isEnoent, hne]
    simp [putStatCallback, hen]
  · cases hd : st.isDir <;> simp [putStatCallback, isEnoent, hd]

/-- C10 amended witness: a concrete `EPERM` stat error crashes, `ENOENT`
is caught, and a successful stat of a plain file proceeds. -/
theorem c10_witness :
    putStatCallback (some { code := str ("EPERM") }) none = PutStatStep.typeErrorCrash ∧
    putStatCallback (some { code := str ("ENOENT") }) none = PutStatStep.localMissing ∧
    putStatCallback none (some { isDir := false, size := 5 })
      ≠ PutStatStep.typeErrorCrash :=
  c10_stat_guard_only_enoent { code := str ("EPERM") } { isDir := false, size := 5 }
    none (by decide)

end JsFtp
